import Mathlib

/-- A JavaScript value as it appears in a source record. -/
inductive JsValue where
  | null : JsValue
  | undef : JsValue
  | bool : Bool → JsValue
  | num : Rat → JsValue
  | str : String → JsValue
  | obj : List (String × JsValue) → JsValue
deriving Repr

/-- JavaScript truthiness: `null`, `undefined`, `false`, `0`, `""` are falsy. -/
def jsTruthy : JsValue → Bool
  | JsValue.null => false
  | JsValue.undef => false
  | JsValue.bool b => b
  | JsValue.num q => q ≠ 0
  | JsValue.str s => s ≠ ""
  | JsValue.obj _ => true

/-- `v ?? d` — nullish coalescing: replaces `null`/`undefined` by the default. -/
def jsCoalesce (v d : JsValue) : JsValue :=
  match v with
  | JsValue.null => d
  | JsValue.undef => d
  | _ => v

/-- `v != null` (loose inequality with null): false exactly for `null` and `undefined`. -/
def jsNotNull (v : JsValue) : Bool :=
  match v with
  | JsValue.null => false
  | JsValue.undef => false
  | _ => true

/-- Whitespace recognized by `String.prototype.trim` (ASCII part). -/
def isJsWs (c : Char) : Bool :=
  c = '\x0b' ∨ c = '\x0c' ∨ c = '\r' ∨ c = '\n' ∨ c = '\t' ∨ c = ' '

/-- Trim of a character list: drop whitespace from both ends. -/
def trimChars (l : List Char) : List Char :=
  ((l.dropWhile isJsWs).reverse.dropWhile isJsWs).reverse

/-- JavaScript `s.trim()`. -/
def jsTrim (s : String) : String :=
  String.mk (trimChars s.toList)

/-- Smallest `k ≤ fuel` with `d ∣ 10 ^ k` (the length of the decimal fraction). -/
def decExpAux : Nat → Nat → Nat → Option Nat
  | 0, _, _ => none
  | fuel + 1, d, k => if d ∣ 10 ^ k then some k else decExpAux fuel d (k + 1)

/-- Left-pad a numeral with zeros to `k` digits. -/
def padLeftZeros (s : String) (k : Nat) : String :=
  String.mk (List.replicate (k - s.length) '0') ++ s

/-- Strip trailing zero digits (of a decimal fraction). -/
def stripTrailZeros (s : String) : String :=
  String.mk (s.toList.reverse.dropWhile (· = '0')).reverse

/-- JavaScript number-to-string for the terminating decimals the pipeline
produces: integers print without a decimal point, other values with the
shortest decimal fraction.  (Exponent notation for very large/small numbers
is outside the model; for non-terminating rationals — which the parsers
never produce — a fraction form is emitted.) -/
def jsNumToString (q : Rat) : String :=
  if q.den = 1 then toString q.num
  else
    match decExpAux (q.den + 1) q.den 0 with
    | none => toString q.num ++ "/" ++ toString q.den
    | some k =>
      let sign := if q.num < 0 then "-" else ""
      let m := q.num.natAbs * 10 ^ k / q.den
      let ip := m / 10 ^ k
      let fr := m % 10 ^ k
      if fr = 0 then sign ++ toString ip
      else sign ++ toString ip ++ "." ++ stripTrailZeros (padLeftZeros (toString fr) k)

/-- JavaScript `String(value)`. -/
def jsToString : JsValue → String
  | JsValue.null => "null"
  | JsValue.undef => "undefined"
  | JsValue.bool true => "true"
  | JsValue.bool false => "false"
  | JsValue.num q => jsNumToString q
  | JsValue.str s => s
  | JsValue.obj _ => "[object Object]"

/-- Leading sign of a numeric literal; returns the sign and the rest. -/
def readSign : List Char → Int × List Char
  | '-' :: rest => (-1, rest)
  | '+' :: rest => (1, rest)
  | l => (1, l)

/-- Value of a (non-empty) ASCII digit list. -/
def digitsToNat (l : List Char) : Nat :=
  l.foldl (fun a c => a * 10 + (c.toNat - 48)) 0

/-- JavaScript `parseInt(s, 10)`: skip leading whitespace, optional sign,
then the longest digit prefix; `NaN` (here `none`) when no digit leads. -/
def jsParseInt (s : String) : Option Int :=
  let l := s.toList.dropWhile isJsWs
  let (sg, l1) := readSign l
  let ds := l1.takeWhile Char.isDigit
  if ds.isEmpty then none else some (sg * (digitsToNat ds : Int))

/-- Exponent suffix of a float literal (`e`/`E`, optional sign, digits);
an incomplete exponent contributes 0 (it is not part of the parsed prefix). -/
def parseExpPart : List Char → Int
  | c :: rest =>
    if c = 'e' ∨ c = 'E' then
      let (sg, l) := readSign rest
      let ds := l.takeWhile Char.isDigit
      if ds.isEmpty then 0 else sg * (digitsToNat ds : Int)
    else 0
  | [] => 0

/-- The exact value of a decimal literal: mantissa digits `M` (integer and
fraction concatenated), `f` fraction digits and exponent `e` denote
`sg * M * 10 ^ (e - f)`, built with `mkRat` so the kernel can evaluate it. -/
def decimalValue (sg : Int) (m : Nat) (f : Nat) (e : Int) : Rat :=
  if e - (f : Int) ≥ 0 then mkRat (sg * m * 10 ^ (e - (f : Int)).toNat) 1
  else mkRat (sg * m) (10 ^ ((f : Int) - e).toNat)

/-- JavaScript `parseFloat(s)`: skip leading whitespace, optional sign,
digits with an optional fraction, optional exponent; `NaN` (`none`) when no
digit occurs in the mantissa.  Modelled exactly over ℚ. -/
def jsParseFloat (s : String) : Option Rat :=
  let l := s.toList.dropWhile isJsWs
  let (sg, l1) := readSign l
  let ip := l1.takeWhile Char.isDigit
  let l2 := l1.dropWhile Char.isDigit
  let fpl3 : List Char × List Char :=
    match l2 with
    | '.' :: rest => (rest.takeWhile Char.isDigit, rest.dropWhile Char.isDigit)
    | _ => ([], l2)
  if ip.isEmpty ∧ fpl3.1.isEmpty then none
  else
    some (decimalValue sg (digitsToNat (ip ++ fpl3.1)) fpl3.1.length (parseExpPart fpl3.2))

/-- `s.replace(/,/g, '')`. -/
def removeCommas (s : String) : String :=
  String.mk (s.toList.filter (fun c => c ≠ ','))

/-- `s.replace(/[^\d-]/g, '')`: keep only ASCII digits and minus signs. -/
def keepDigitsMinus (s : String) : String :=
  String.mk (s.toList.filter (fun c => c.isDigit ∨ c = '-'))

/-- `s.replace(/[^\d.,-]/g, '')`: keep digits, dots, commas, minus signs. -/
def keepFloatChars (s : String) : String :=
  String.mk (s.toList.filter (fun c => c.isDigit ∨ c = '.' ∨ c = ',' ∨ c = '-'))

/-- The guard `value === null || value === undefined || value === ''` used by
both `CKANApiLoader` parsers. -/
def isMissingStrict : JsValue → Bool
  | JsValue.null => true
  | JsValue.undef => true
  | JsValue.str s => s = ""
  | _ => false

/-- The guard `value === null || value === undefined || String(value).trim() === ''`
used by both `CsvLoader` parsers. -/
def isMissingBlank (v : JsValue) : Bool :=
  match v with
  | JsValue.null => true
  | JsValue.undef => true
  | _ => jsTrim (jsToString v) = ""

namespace CKANApiLoader

/-- `CKANApiLoader.parseIntSafely` (loader_csv.ts:589-596): guard
`null`/`undefined`/`''`, then `parseInt(String(value), 10)` — no stripping. -/
def parseIntSafely (value : JsValue) : Option Int :=
  if isMissingStrict value then none
  else jsParseInt (jsToString value)

/-- `CKANApiLoader.parseFloatSafely` (loader_csv.ts:598-605): guard, then
`parseFloat(String(value).replace(/,/g, ''))`. -/
def parseFloatSafely (value : JsValue) : Option Rat :=
  if isMissingStrict value then none
  else jsParseFloat (removeCommas (jsToString value))

end CKANApiLoader

namespace CsvLoader

/-- `CsvLoader.parseIntSafely` (loader_csv.ts:219-227): guard
`null`/`undefined`/blank, then `parseInt(String(value).replace(/[^\d-]/g, ''), 10)`. -/
def parseIntSafely (value : JsValue) : Option Int :=
  if isMissingBlank value then none
  else jsParseInt (keepDigitsMinus (jsToString value))

/-- `CsvLoader.parseFloatSafely` (loader_csv.ts:229-238): guard, then
`parseFloat(String(value).replace(/[^\d.,-]/g, '').replace(/,/g, ''))`. -/
def parseFloatSafely (value : JsValue) : Option Rat :=
  if isMissingBlank value then none
  else jsParseFloat (removeCommas (keepFloatChars (jsToString value)))

end CsvLoader

/-- `fieldPath.split('.')` on the character level: split at every dot, empty
segments included (`''.split('.')` is `['']`). -/
def splitDotAux : List Char → List Char → List String
  | [], acc => [String.mk acc.reverse]
  | c :: rest, acc =>
    if c = '.' then String.mk acc.reverse :: splitDotAux rest []
    else splitDotAux rest (c :: acc)

/-- `fieldPath.split('.')`. -/
def jsSplitDot (s : String) : List String :=
  splitDotAux s.toList []

/-- The key-walking loop shared by both extractors (loader_csv.ts:203-217 and
574-586): for each path segment, require a truthy object holding the key
(`value && typeof value === 'object' && key in value`), else return `null`. -/
def walkKeys : JsValue → List String → JsValue
  | v, [] => v
  | v, key :: rest =>
    match v with
    | JsValue.obj fields =>
      match fields.lookup key with
      | some w => walkKeys w rest
      | none => JsValue.null
    | _ => JsValue.null

/-- `CsvLoader.extractField` (loader_csv.ts:203-217): split the path on dots
and walk; the path is typed `string` and is split unconditionally. -/
def CsvLoader.extractField (record : JsValue) (fieldPath : String) : JsValue :=
  walkKeys record (jsSplitDot fieldPath)

/-- `CKANApiLoader.extractField` (loader_csv.ts:574-586): an absent or empty
(falsy) path returns `null` before any walking. -/
def CKANApiLoader.extractField (record : JsValue) (fieldPath : Option String) : JsValue :=
  match fieldPath with
  | none => JsValue.null
  | some p => if p = "" then JsValue.null else walkKeys record (jsSplitDot p)

/-- JSON string escaping (the characters occurring in this development). -/
def escapeJsonChar (c : Char) : String :=
  if c = '"' then "\\\""
  else if c = '\\' then "\\\\"
  else if c = '\n' then "\\n"
  else if c = '\t' then "\\t"
  else if c = '\r' then "\\r"
  else String.singleton c

/-- Escape a string for a JSON document. -/
def escapeJson (s : String) : String :=
  String.join (s.toList.map escapeJsonChar)

mutual

/-- `JSON.stringify` over the modelled values.  Properties whose value is
`undefined` are omitted; a top-level `undefined` never occurs here (the
transforms always stringify an object). -/
def jsonStringify : JsValue → String
  | JsValue.null => "null"
  | JsValue.undef => "null"
  | JsValue.bool true => "true"
  | JsValue.bool false => "false"
  | JsValue.num q => jsNumToString q
  | JsValue.str s => "\"" ++ escapeJson s ++ "\""
  | JsValue.obj fields => "\x7b" ++ String.intercalate "," (jsonFields fields) ++ "\x7d"

/-- Serialized `"key":value` entries of an object, skipping `undefined`. -/
def jsonFields : List (String × JsValue) → List String
  | [] => []
  | (k, v) :: rest =>
    match v with
    | JsValue.undef => jsonFields rest
    | _ => ("\"" ++ escapeJson k ++ "\":" ++ jsonStringify v) :: jsonFields rest

end

/-- Reduce to a 32-bit word. -/
def w32 (n : Nat) : Nat := n % 4294967296

/-- Right-rotation of a 32-bit word. -/
def rotr32 (n x : Nat) : Nat := w32 ((x >>> n) ||| (x <<< (32 - n)))

/-- SHA-256 `Ch`. -/
def shaCh (x y z : Nat) : Nat := (x &&& y) ^^^ ((x ^^^ 4294967295) &&& z)

/-- SHA-256 `Maj`. -/
def shaMaj (x y z : Nat) : Nat := (x &&& y) ^^^ (x &&& z) ^^^ (y &&& z)

/-- SHA-256 `Σ0`. -/
def bigSigma0 (x : Nat) : Nat := rotr32 2 x ^^^ rotr32 13 x ^^^ rotr32 22 x

/-- SHA-256 `Σ1`. -/
def bigSigma1 (x : Nat) : Nat := rotr32 6 x ^^^ rotr32 11 x ^^^ rotr32 25 x

/-- SHA-256 `σ0`. -/
def smallSigma0 (x : Nat) : Nat := rotr32 7 x ^^^ rotr32 18 x ^^^ (x >>> 3)

/-- SHA-256 `σ1`. -/
def smallSigma1 (x : Nat) : Nat := rotr32 17 x ^^^ rotr32 19 x ^^^ (x >>> 10)

/-- The SHA-256 round constants (FIPS 180-4). -/
def sha256K : List Nat :=
  [1116352408, 1899447441, 3049323471, 3921009573,
   961987163, 1508970993, 2453635748, 2870763221,
   3624381080, 310598401, 607225278, 1426881987,
   1925078388, 2162078206, 2614888103, 3248222580,
   3835390401, 4022224774, 264347078, 604807628,
   770255983, 1249150122, 1555081692, 1996064986,
   2554220882, 2821834349, 2952996808, 3210313671,
   3336571891, 3584528711, 113926993, 338241895,
   666307205, 773529912, 1294757372, 1396182291,
   1695183700, 1986661051, 2177026350, 2456956037,
   2730485921, 2820302411, 3259730800, 3345764771,
   3516065817, 3600352804, 4094571909, 275423344,
   430227734, 506948616, 659060556, 883997877,
   958139571, 1322822218, 1537002063, 1747873779,
   1955562222, 2024104815, 2227730452, 2361852424,
   2428436474, 2756734187, 3204031479, 3329325298]

/-- Big-endian bytes of the 64-bit message length. -/
def lenBytes64 (n : Nat) : List Nat :=
  (List.range 8).map (fun i => (n >>> ((7 - i) * 8)) % 256)

/-- SHA-256 padding: `0x80`, zeros, then the bit length, to a 64-byte multiple. -/
def sha256Pad (msg : List Nat) : List Nat :=
  msg ++ [128] ++ List.replicate ((64 - ((msg.length + 9) % 64)) % 64) 0
      ++ lenBytes64 (msg.length * 8)

/-- Big-endian 32-bit words of a byte list. -/
def bytesToWords : List Nat → List Nat
  | b0 :: b1 :: b2 :: b3 :: rest => (((b0 * 256 + b1) * 256 + b2) * 256 + b3) :: bytesToWords rest
  | _ => []

/-- Split a list into consecutive chunks of at most `n` elements
(fuel-structural so the kernel can evaluate it; `l.length` fuel suffices). -/
def chunksOfAux (n : Nat) : Nat → List α → List (List α)
  | _, [] => []
  | 0, _ => []
  | fuel + 1, x :: xs =>
    if n = 0 then []
    else (x :: xs).take n :: chunksOfAux n fuel ((x :: xs).drop n)

/-- Split a list into consecutive chunks of at most `n` elements. -/
def chunksOf (n : Nat) (l : List α) : List (List α) :=
  chunksOfAux n l.length l

/-- Extend 16 message-schedule words to 64. -/
def sha256Extend (w : Array Nat) : Array Nat :=
  (List.range 48).foldl
    (fun w _ =>
      let t := w.size
      let s0 := smallSigma0 (w.getD (t - 15) 0)
      let s1 := smallSigma1 (w.getD (t - 2) 0)
      w.push (w32 (w.getD (t - 16) 0 + s0 + w.getD (t - 7) 0 + s1)))
    w

/-- The eight SHA-256 working variables. -/
structure Sha256State where
  a : Nat
  b : Nat
  c : Nat
  d : Nat
  e : Nat
  f : Nat
  g : Nat
  h : Nat
deriving Repr

/-- The SHA-256 initial hash value. -/
def sha256IV : Sha256State :=
  ⟨1779033703, 3144134277, 1013904242, 2773480762, 1359893119, 2600822924, 528734635, 1541459225⟩

/-- One SHA-256 compression round. -/
def sha256Round (st : Sha256State) (ki wi : Nat) : Sha256State :=
  let t1 := w32 (st.h + bigSigma1 st.e + shaCh st.e st.f st.g + ki + wi)
  let t2 := w32 (bigSigma0 st.a + shaMaj st.a st.b st.c)
  ⟨w32 (t1 + t2), st.a, st.b, st.c, w32 (st.d + t1), st.e, st.f, st.g⟩

/-- Process one 64-byte block. -/
def sha256Block (hv : Sha256State) (block : List Nat) : Sha256State :=
  let w := sha256Extend (bytesToWords block).toArray
  let st := (List.range 64).foldl
    (fun st i => sha256Round st (sha256K.getD i 0) (w.getD i 0)) hv
  ⟨w32 (hv.a + st.a), w32 (hv.b + st.b), w32 (hv.c + st.c), w32 (hv.d + st.d),
   w32 (hv.e + st.e), w32 (hv.f + st.f), w32 (hv.g + st.g), w32 (hv.h + st.h)⟩

/-- SHA-256 of a byte list, as eight 32-bit words. -/
def sha256Words (msg : List Nat) : List Nat :=
  let fin := (chunksOf 64 (sha256Pad msg)).foldl sha256Block sha256IV
  [fin.a, fin.b, fin.c, fin.d, fin.e, fin.f, fin.g, fin.h]

/-- A lowercase hexadecimal digit: `0`-`9` or `a`-`f`. -/
def isLowerHexDigit (c : Char) : Bool :=
  ('0' ≤ c ∧ c ≤ '9') ∨ ('a' ≤ c ∧ c ≤ 'f')

/-- Lowercase hex digit of a value below 16 (codepoint arithmetic). -/
def hexChar (n : Nat) : Char :=
  if n < 10 then Char.ofNat (48 + n) else Char.ofNat (87 + n)

/-- Eight lowercase hex digits of a 32-bit word. -/
def toHexWord (n : Nat) : String :=
  String.mk ((List.range 8).map (fun i => hexChar ((n >>> ((7 - i) * 4)) % 16)))

/-- SHA-256 digest of a byte list rendered as 64 lowercase hex characters. -/
def sha256Hex (msg : List Nat) : String :=
  String.join ((sha256Words msg).map toHexWord)

/-- UTF-8 bytes of a string. -/
def strToBytes (s : String) : List Nat :=
  s.toUTF8.toList.map UInt8.toNat

/-- `calculateHash` (helpers.ts:345-347):
`crypto.createHash('sha256').update(input, 'utf8').digest('hex')`. -/
def calculateHash (input : String) : String :=
  sha256Hex (strToBytes input)

/-- Provenance discriminator (`source_type ENUM('api','csv')`). -/
inductive SourceType where
  | api : SourceType
  | csv : SourceType
deriving DecidableEq, Repr

/-- The canonical fact record produced by both loaders (`ProcessedRecord`
in loader_csv.ts). -/
structure ProcessedRecord where
  kategori : String
  elemen : String
  tahun : Option Int
  nilai : Option Rat
  satuan : Option String
  raw_json : String
  source_type : SourceType
  source_ref : String
  hash_key : String
deriving DecidableEq, Repr

/-- A `number | null` in a template literal: `null` prints as `"null"`. -/
def tmplInt : Option Int → String
  | none => "null"
  | some t => toString t

/-- A nullable numeric value in a template literal. -/
def tmplNum : Option Rat → String
  | none => "null"
  | some q => jsNumToString q

/-- A `string | null` in a template literal. -/
def tmplStr : Option String → String
  | none => "null"
  | some s => s

/-- The pipe-joined fingerprint input
`` `${kategori}|${elemen}|${tahun}|${nilai}|${satuan}|${ref}` `` shared by
both loaders (loader_csv.ts:187 and 500-501). -/
def hashInput (kategori elemen : String) (tahun : Option Int) (nilai : Option Rat)
    (satuan : Option String) (ref : String) : String :=
  kategori ++ "|" ++ elemen ++ "|" ++ tmplInt tahun ++ "|" ++ tmplNum nilai ++ "|"
    ++ tmplStr satuan ++ "|" ++ ref

/-- Truthiness of an optional string configuration field: absent or empty
is falsy. -/
def truthyOptStr : Option String → Bool
  | none => false
  | some s => s ≠ ""

/-- `Object.keys(record)` (insertion order; non-objects yield no keys —
the transforms are only ever fed JSON records). -/
def objKeys : JsValue → List String
  | JsValue.obj fields => fields.map Prod.fst
  | _ => []

/-- `record[key]`. -/
def objGet (record : JsValue) (key : String) : JsValue :=
  match record with
  | JsValue.obj fields =>
    match fields.lookup key with
    | some v => v
    | none => JsValue.undef
  | _ => JsValue.undef

/-- JavaScript property assignment on a field list: an existing key keeps
its position and takes the new value, a new key is appended. -/
def objAssign (fields : List (String × JsValue)) (k : String) (v : JsValue) :
    List (String × JsValue) :=
  if (fields.lookup k).isSome then
    fields.map (fun kv => if kv.1 = k then (k, v) else kv)
  else fields ++ [(k, v)]

/-- `{ ...record, key: v }`. -/
def objSpreadSet (record : JsValue) (key : String) (v : JsValue) : JsValue :=
  match record with
  | JsValue.obj fields => JsValue.obj (objAssign fields key v)
  | _ => JsValue.obj [(key, v)]

namespace CKANApiLoader

/-- The `mapping` of an API source (`ApiSourceConfig`).  The
`year_column_regex` configuration string is carried in compiled form: the
embedding of `key.match(new RegExp(pattern))` returning the first capture
group of the first match, `none` when the key does not match. -/
structure ApiMapping where
  elemen_field : String
  tahun_field : Option String
  nilai_field : Option String
  satuan_field : Option String
  year_column_regex : Option (String → Option String)
  unit_field : Option String

/-- `mkHash` (loader_csv.ts:500-501). -/
def mkHash (kategori resource_id : String) (elemen : String) (tahun : Option Int)
    (nilai : Option Rat) (satuan : Option String) : String :=
  calculateHash (hashInput kategori elemen tahun nilai satuan resource_id)

/-- The `elemen` local of both transform cases:
`String(this.extractField(record, map.elemen_field) ?? '').trim()`. -/
def elemenOf (record : JsValue) (elemen_field : String) : String :=
  jsTrim (jsToString (jsCoalesce (extractField record (some elemen_field)) (JsValue.str "")))

/-- The satuan-cleaning step `(raw != null && String(raw).trim() !== '') ? String(raw).trim() : null`. -/
def cleanUnit (raw : JsValue) : Option String :=
  if jsNotNull raw ∧ jsTrim (jsToString raw) ≠ "" then some (jsTrim (jsToString raw)) else none

/-- CASE 1 of `CKANApiLoader.transformRecord` (loader_csv.ts:504-529):
long mode, one canonical record, or none when `elemen` is empty. -/
def transformLong (kategori resource_id : String) (map : ApiMapping) (record : JsValue) :
    List ProcessedRecord :=
  let elemen := elemenOf record map.elemen_field
  if elemen = "" then []
  else
    let tahunRaw := extractField record map.tahun_field
    let nilaiRaw := extractField record map.nilai_field
    let satuanRaw :=
      if truthyOptStr map.satuan_field then extractField record map.satuan_field else JsValue.null
    let tahun := parseIntSafely tahunRaw
    let nilai := parseFloatSafely nilaiRaw
    let satuan := cleanUnit satuanRaw
    [⟨kategori, elemen, tahun, nilai, satuan, jsonStringify record, SourceType.api, resource_id,
      mkHash kategori resource_id elemen tahun nilai satuan⟩]

/-- CASE 2 of `CKANApiLoader.transformRecord` (loader_csv.ts:531-567):
wide mode, one canonical record per key matching the year-column regex,
or none when `elemen` is empty. -/
def transformWide (kategori resource_id : String) (map : ApiMapping)
    (re : String → Option String) (record : JsValue) : List ProcessedRecord :=
  let elemen := elemenOf record map.elemen_field
  if elemen = "" then []
  else
    let unitFromMap :=
      if truthyOptStr map.unit_field then extractField record map.unit_field else JsValue.null
    let unitFallback := extractField record (some "Satuan")
    let satuan := cleanUnit (jsCoalesce unitFromMap unitFallback)
    (objKeys record).filterMap (fun key =>
      match re key with
      | none => none
      | some cap =>
        let tahun := parseIntSafely (JsValue.str cap)
        let nilai := parseFloatSafely (objGet record key)
        some ⟨kategori, elemen, tahun, nilai, satuan,
              jsonStringify (objSpreadSet record "__value_from__" (JsValue.str key)),
              SourceType.api, resource_id,
              mkHash kategori resource_id elemen tahun nilai satuan⟩)

/-- `CKANApiLoader.transformRecord` (loader_csv.ts:495-572): dispatch on the
mapping mode; an incomplete mapping yields no records (warning logged). -/
def transformRecord (kategori resource_id : String) (map : ApiMapping) (record : JsValue) :
    List ProcessedRecord :=
  if truthyOptStr map.tahun_field ∧ truthyOptStr map.nilai_field then
    transformLong kategori resource_id map record
  else
    match map.year_column_regex with
    | some re => transformWide kategori resource_id map re record
    | none => []

/-- `CKANApiLoader.processRecords` (loader_csv.ts:478-493): transform each
record of a page and concatenate the results. -/
def processRecords (kategori resource_id : String) (map : ApiMapping)
    (records : List JsValue) : List ProcessedRecord :=
  (records.map (transformRecord kategori resource_id map)).flatten

end CKANApiLoader

namespace CsvLoader

/-- The `mapping` of a file source (`CsvSourceConfig`): all four paths required. -/
structure CsvMapping where
  elemen_field : String
  tahun_field : String
  nilai_field : String
  satuan_field : String

/-- `CsvLoader.transformRecord` (loader_csv.ts:166-201): one canonical
record per row, or none when the element is falsy or blank. -/
def transformRecord (kategori fileName : String) (map : CsvMapping) (record : JsValue) :
    Option ProcessedRecord :=
  let elemen := extractField record map.elemen_field
  let tahunRaw := extractField record map.tahun_field
  let nilaiRaw := extractField record map.nilai_field
  let satuan := extractField record map.satuan_field
  if ¬ jsTruthy elemen ∨ jsTrim (jsToString elemen) = "" then none
  else
    let cleanElemen := jsTrim (jsToString elemen)
    let tahun := if jsTruthy tahunRaw then parseIntSafely tahunRaw else none
    let nilai := if jsTruthy nilaiRaw then parseFloatSafely nilaiRaw else none
    let cleanSatuan :=
      if jsTruthy satuan ∧ jsTrim (jsToString satuan) ≠ "" then
        some (jsTrim (jsToString satuan))
      else none
    some ⟨kategori, cleanElemen, tahun, nilai, cleanSatuan, jsonStringify record,
          SourceType.csv, fileName,
          calculateHash (hashInput kategori cleanElemen tahun nilai cleanSatuan fileName)⟩

/-- The Excel row-to-record conversion (loader_csv.ts:130-136): headers from
the first row become keys; `record[header] = row[index] || ''` replaces any
falsy cell by the empty string. -/
def excelRowToRecord (headers : List String) (row : List JsValue) : JsValue :=
  JsValue.obj (headers.enum.foldl
    (fun acc ih =>
      let v := row.getD ih.1 JsValue.undef
      objAssign acc ih.2 (if jsTruthy v then v else JsValue.str ""))
    [])

end CsvLoader

/-- Embedding of `"Data (\\d{4})"` compiled by `new RegExp` and applied as
`key.match(yearRe)`: try the pattern (the literal `Data ` followed by four
ASCII digits, captured) at this position. -/
def tryDataYearHere : List Char → Option String
  | 'D' :: 'a' :: 't' :: 'a' :: ' ' :: d1 :: d2 :: d3 :: d4 :: _ =>
    if d1.isDigit ∧ d2.isDigit ∧ d3.isDigit ∧ d4.isDigit then
      some (String.mk [d1, d2, d3, d4])
    else none
  | _ => none

/-- Unanchored search: the capture group of the first (leftmost) match. -/
def matchDataYearAux : List Char → Option String
  | [] => none
  | c :: rest =>
    match tryDataYearHere (c :: rest) with
    | some y => some y
    | none => matchDataYearAux rest

/-- `key.match(new RegExp("Data (\\d{4})"))?.[1]` — the year-column matcher
of the wide-mode configuration used in the specification's example. -/
def matchDataYear (key : String) : Option String :=
  matchDataYearAux key.toList

/-- A stored row of `facts_long` (src/db/init.sql); timestamps are abstract
instants (`Nat`), `id` order is list order. -/
structure FactRow where
  kategori : String
  elemen : String
  tahun : Option Int
  nilai : Option Rat
  satuan : Option String
  raw_json : String
  source_type : SourceType
  source_ref : String
  hash_key : String
  ingested_at : Nat
  updated_at : Nat
deriving DecidableEq, Repr

/-- The tally returned by the upsert operations (`UpsertResult`). -/
structure UpsertResult where
  inserted : Nat
  updated : Nat
  skipped : Nat
  errors : Nat
deriving DecidableEq, Repr

/-- The row inserted for a fresh fingerprint (VALUES list of
database.ts:76-94 plus the `updated_at` column default). -/
def rowOfRecord (r : ProcessedRecord) (now : Nat) : FactRow :=
  ⟨r.kategori, r.elemen, r.tahun, r.nilai, r.satuan, r.raw_json, r.source_type,
   r.source_ref, r.hash_key, now, now⟩

/-- The `ON DUPLICATE KEY UPDATE` clause (database.ts:99-105): only `nilai`,
`satuan`, `raw_json`, `source_type`, `source_ref` and `updated_at` change. -/
def updateRow (old : FactRow) (r : ProcessedRecord) (now : Nat) : FactRow :=
  { old with
    nilai := r.nilai
    satuan := r.satuan
    raw_json := r.raw_json
    source_type := r.source_type
    source_ref := r.source_ref
    updated_at := now }

/-- One row of the multi-row `INSERT ... ON DUPLICATE KEY UPDATE` against the
`uniq_hash` unique key: returns the new table and the MySQL affected-rows
contribution (1 for an insert, 2 for an update that changes the row, 0 for
an update to identical values). -/
def applyUpsertRow (db : List FactRow) (r : ProcessedRecord) (now : Nat) :
    List FactRow × Nat :=
  match db.find? (fun row => row.hash_key = r.hash_key) with
  | some old =>
    (db.map (fun row => if row.hash_key = r.hash_key then updateRow row r now else row),
     if updateRow old r now = old then 0 else 2)
  | none => (db ++ [rowOfRecord r now], 1)

/-- The whole statement: rows applied in order, affected-rows summed. -/
def applyUpsertStmt (db : List FactRow) (records : List ProcessedRecord) (now : Nat) :
    List FactRow × Nat :=
  records.foldl
    (fun acc r =>
      let step := applyUpsertRow acc.1 r now
      (step.1, acc.2 + step.2))
    (db, 0)

/-- The inserted/updated accounting of `DatabaseManager.upsertRecords`
(database.ts:112-116): `updated = affectedRows - n`,
`inserted = n - max(updated, 0)`, both clamped at 0. -/
def upsertCounts (n affected : Nat) : UpsertResult :=
  let updated : Int := (affected : Int) - (n : Int)
  let inserted : Int := (n : Int) - max updated 0
  ⟨(max inserted 0).toNat, (max updated 0).toNat, 0, 0⟩

namespace DatabaseManager

/-- `DatabaseManager.upsertRecords` (database.ts:68-126), success path: an
empty batch touches nothing; otherwise the statement runs in one transaction
and the tally is computed from the affected-rows count. -/
def upsertRecords (db : List FactRow) (records : List ProcessedRecord) (now : Nat) :
    List FactRow × UpsertResult :=
  if records.isEmpty then (db, ⟨0, 0, 0, 0⟩)
  else
    let step := applyUpsertStmt db records now
    (step.1, upsertCounts records.length step.2)

/-- Sum of two tallies (the `totalResult.x += batchResult.x` lines). -/
def addResults (a b : UpsertResult) : UpsertResult :=
  ⟨a.inserted + b.inserted, a.updated + b.updated, a.skipped + b.skipped, a.errors + b.errors⟩

/-- The loop of `DatabaseManager.batchUpsertRecords` (database.ts:138-155).
`failsAt i` says whether the `i`-th chunk's transaction fails (a failed
chunk is rolled back, its records are counted as errors, and the loop
continues).  The source loops forever when `batchSize = 0`; the model
returns early there and every theorem assumes a positive chunk size. -/
def batchGo (failsAt : Nat → Bool) (idx : Nat) (db : List FactRow) :
    Nat → List ProcessedRecord → Nat → Nat → List FactRow × UpsertResult
  | _, [], _, _ => (db, ⟨0, 0, 0, 0⟩)
  | 0, _ :: _, _, _ => (db, ⟨0, 0, 0, 0⟩)
  | fuel + 1, x :: xs, batchSize, now =>
    if batchSize = 0 then (db, ⟨0, 0, 0, 0⟩)
    else
      let batch := (x :: xs).take batchSize
      let step :=
        if failsAt idx then (db, (⟨0, 0, 0, batch.length⟩ : UpsertResult))
        else upsertRecords db batch now
      let rest := batchGo failsAt (idx + 1) step.1 fuel ((x :: xs).drop batchSize) batchSize now
      (rest.1, addResults step.2 rest.2)

/-- `DatabaseManager.batchUpsertRecords` (database.ts:129-158). -/
def batchUpsertRecords (failsAt : Nat → Bool) (db : List FactRow)
    (records : List ProcessedRecord) (batchSize : Nat) (now : Nat) :
    List FactRow × UpsertResult :=
  batchGo failsAt 0 db records.length records batchSize now

end DatabaseManager

/-- A stored row of `etl_checkpoints` (src/db/init.sql), keyed uniquely by
`(source_type, source_ref)`. -/
structure CheckpointRow where
  source_type : SourceType
  source_ref : String
  last_offset : Int
deriving DecidableEq, Repr

/-- `DatabaseManager.getCheckpoint` (database.ts:245-261).  `connected`
models `this.connection` being established; `queryFails` models the SELECT
throwing (caught: a warning is logged and 0 is returned).  The result is
`Except` because the no-connection guard throws to the caller. -/
def DatabaseManager.getCheckpoint (connected : Bool) (queryFails : Bool)
    (checkpoints : List CheckpointRow) (sourceType : SourceType) (sourceRef : String) :
    Except String Int :=
  if ¬ connected then Except.error "Database connection not established"
  else if queryFails then Except.ok 0
  else
    match checkpoints.filter
        (fun c => c.source_type = sourceType ∧ c.source_ref = sourceRef) with
    | [] => Except.ok 0
    | c :: _ => Except.ok c.last_offset

/-- The predicate of the `--since` year-floor filter
(`r => !r.tahun || r.tahun >= options.since!`, run.ts:256 and 340):
a `null` or `0` year is falsy and kept. -/
def sinceKeep (since : Int) (tahun : Option Int) : Bool :=
  match tahun with
  | none => true
  | some t => t = 0 ∨ t ≥ since

namespace EtlRunner

/-- The year-floor filter of `EtlRunner.processApiSource` (run.ts:255-258). -/
def filterSinceApi (since : Int) (records : List ProcessedRecord) : List ProcessedRecord :=
  records.filter (fun r => sinceKeep since r.tahun)

/-- The year-floor filter of `EtlRunner.processCsvSource` (run.ts:339-342). -/
def filterSinceCsv (since : Int) (records : List ProcessedRecord) : List ProcessedRecord :=
  records.filter (fun r => sinceKeep since r.tahun)

end EtlRunner

/-- The wide-mode mapping of the specification's example: element field
`Elemen`, year-column regex `Data (\d{4})`, no explicit unit field. -/
def wideExampleMapping : CKANApiLoader.ApiMapping :=
  ⟨"Elemen", none, none, none, some matchDataYear, none⟩

/-- The example source record
`{Elemen: "Jumlah Penduduk", "Data 2019": "1.200", "Data 2020": "1350", Satuan: "Orang"}`. -/
def wideExampleRecord : JsValue :=
  JsValue.obj
    [("Elemen", JsValue.str "Jumlah Penduduk"),
     ("Data 2019", JsValue.str "1.200"),
     ("Data 2020", JsValue.str "1350"),
     ("Satuan", JsValue.str "Orang")]

/-- The (element, year, value, unit) projection of a canonical record. -/
def identityProj (r : ProcessedRecord) : String × Option Int × Option Rat × Option String :=
  (r.elemen, r.tahun, r.nilai, r.satuan)

/-- The element field resolved to a missing value (`null`/`undefined`) or to
a string that is empty after trimming. -/
def elemMissingOrBlank (v : JsValue) : Prop :=
  v = JsValue.null ∨ v = JsValue.undef ∨ ∃ s, v = JsValue.str s ∧ jsTrim s = ""

/-- The wide-mode example output, named for the fingerprint-law instance. -/
def c3ExampleOut : List ProcessedRecord :=
  CKANApiLoader.transformRecord "penduduk" "res-1" wideExampleMapping wideExampleRecord

/-- A concrete CSV row and its transform, for the fingerprint-law instance. -/
def c3CsvExampleOut : Option ProcessedRecord :=
  CsvLoader.transformRecord "penduduk" "data.csv" ⟨"Elemen", "Tahun", "Nilai", "Satuan"⟩
    (JsValue.obj
      [("Elemen", JsValue.str "Luas"), ("Tahun", JsValue.str "2020"),
       ("Nilai", JsValue.str "10"), ("Satuan", JsValue.str "ha")])

/-- A placeholder record (only used as a default that is never hit). -/
def defaultRecord : ProcessedRecord :=
  ⟨"", "", none, none, none, "", SourceType.csv, "", ""⟩

instance : Inhabited ProcessedRecord := ⟨defaultRecord⟩

/-- The integer normalizer exactly as the specification words it (kept for
comparison with the two implementations): strip all characters except digits
and minus signs, then parse the remainder; a missing value, an empty strip
result or a non-numeric remainder yields missing. -/
def normalizeIntSpec (value : JsValue) : Option Int :=
  match value with
  | JsValue.null => none
  | JsValue.undef => none
  | _ => jsParseInt (keepDigitsMinus (jsToString value))

/-- The headers of the C10 example sheet. -/
def c10Headers : List String := ["Elemen", "Tahun", "Nilai", "Satuan"]

/-- A data row whose year cell holds the number 0. -/
def c10Row : List JsValue :=
  [JsValue.str "Luas", JsValue.num (mkRat 0 1), JsValue.str "5", JsValue.str "ha"]

/-- The chunk-structured reading of the batch loop: attempt each sub-batch
in order, a failing chunk contributing its record count as errors and
leaving the table untouched, a succeeding chunk contributing its upsert
tally and its table update; totals are summed across chunks. -/
def processChunks (failsAt : Nat → Bool) :
    Nat → List FactRow → List (List ProcessedRecord) → Nat →
      List FactRow × UpsertResult
  | _, db, [], _ => (db, ⟨0, 0, 0, 0⟩)
  | idx, db, c :: cs, now =>
    let step :=
      if failsAt idx then (db, (⟨0, 0, 0, c.length⟩ : UpsertResult))
      else DatabaseManager.upsertRecords db c now
    let rest := processChunks failsAt (idx + 1) step.1 cs now
    (rest.1, DatabaseManager.addResults step.2 rest.2)

/-- Three records for exercising the batch chunking with chunk size 2. -/
def c6Records : List ProcessedRecord :=
  [⟨"k", "e1", none, none, none, "{}", SourceType.api, "r", "h1"⟩,
   ⟨"k", "e2", none, none, none, "{}", SourceType.api, "r", "h2"⟩,
   ⟨"k", "e3", none, none, none, "{}", SourceType.api, "r", "h3"⟩]

example : CKANApiLoader.parseIntSafely (JsValue.str "1.200") = some 1 := by rfl

example : CsvLoader.parseIntSafely (JsValue.str "1.200") = some 1200 := by rfl

example : CKANApiLoader.parseFloatSafely (JsValue.str "1.200") = some (mkRat 6 5) := by decide

example : CKANApiLoader.parseFloatSafely (JsValue.str "1350") = some (mkRat 1350 1) := by decide

example : CsvLoader.parseIntSafely (JsValue.str "Rp 100") = some 100 := by rfl

example : CKANApiLoader.parseIntSafely (JsValue.str "Rp 100") = none := by rfl

example : jsNumToString (mkRat 6 5) = "1.2" := by decide

example : jsNumToString (mkRat (-1350) 1) = "-1350" := by decide

example : jsParseFloat "5.e2" = some (mkRat 500 1) := by decide

example : jsParseFloat "-.5" = some (mkRat (-1) 2) := by decide

/-- C1 (counterexample): the wide-mode transform on the example record does
NOT yield the values claimed — `parseFloatSafely` only strips commas, so the
cell `"1.200"` parses as 1.2 (dot taken as a decimal point), not 1200. -/
theorem c1_claim_counterexample :
    ¬ ((CKANApiLoader.transformRecord "penduduk" "res-1" wideExampleMapping
          wideExampleRecord).map identityProj =
        [("Jumlah Penduduk", some 2019, some (mkRat 1200 1), some "Orang"),
         ("Jumlah Penduduk", some 2020, some (mkRat 1350 1), some "Orang")]) := by
  decide

/-- C1 (amended): the wide-mode transform on the example record yields
exactly two canonical records — element "Jumlah Penduduk", unit "Orang",
year 2019 with value 1.2 (the parse of "1.200" after comma removal only)
and year 2020 with value 1350. -/
theorem c1_wide_example_amended :
    (CKANApiLoader.transformRecord "penduduk" "res-1" wideExampleMapping
        wideExampleRecord).map identityProj =
      [("Jumlah Penduduk", some 2019, some (mkRat 6 5), some "Orang"),
       ("Jumlah Penduduk", some 2020, some (mkRat 1350 1), some "Orang")] := by
  decide

/-- The `--since` predicate keeps a record exactly when its year is absent,
zero, or at least the floor. -/
theorem sinceKeep_iff (since : Int) (o : Option Int) :
    sinceKeep since o = true ↔ o = none ∨ o = some 0 ∨ ∃ t, o = some t ∧ since ≤ t := by
  cases o with
  | none => simp [sinceKeep]
  | some t => simp [sinceKeep]

/-- C9: the caller-side year floor keeps every record with a `null` year and
every record with year 0 (both falsy), dropping a record only when its year
is a non-zero number strictly below the floor; the API-path filter and the
CSV-path filter are the same function of the batch. -/
theorem c9_since_filter (since : Int) (records : List ProcessedRecord) :
    (∀ r, r ∈ EtlRunner.filterSinceApi since records ↔
        r ∈ records ∧
          (r.tahun = none ∨ r.tahun = some 0 ∨ ∃ t, r.tahun = some t ∧ since ≤ t)) ∧
    EtlRunner.filterSinceApi since records = EtlRunner.filterSinceCsv since records := by
  constructor
  · intro r
    rw [EtlRunner.filterSinceApi, List.mem_filter, sinceKeep_iff]
  · rfl

/-- A missing-or-blank element extract makes the API transforms' `elemen`
local empty. -/
theorem elemenOf_eq_empty (record : JsValue) (f : String)
    (h : elemMissingOrBlank (CKANApiLoader.extractField record (some f))) :
    CKANApiLoader.elemenOf record f = "" := by
  rcases h with h | h | ⟨s, hs, ht⟩
  · simp [CKANApiLoader.elemenOf, h, jsCoalesce, jsToString, jsTrim, trimChars]
  · simp [CKANApiLoader.elemenOf, h, jsCoalesce, jsToString, jsTrim, trimChars]
  · simp [CKANApiLoader.elemenOf, hs, jsCoalesce, jsToString, ht]

/-- C5: a source record whose configured element field is missing or blank
yields zero canonical records — through the API transform dispatcher (hence
in long mode and in wide mode, no matter how many keys match the year-column
regex) and through the file loader's row transform. -/
theorem c5_empty_element (kategori resource_id fileName : String)
    (amap : CKANApiLoader.ApiMapping) (cmap : CsvLoader.CsvMapping) (record : JsValue)
    (hapi : elemMissingOrBlank (CKANApiLoader.extractField record (some amap.elemen_field)))
    (hcsv : elemMissingOrBlank (CsvLoader.extractField record cmap.elemen_field)) :
    CKANApiLoader.transformRecord kategori resource_id amap record = [] ∧
    CsvLoader.transformRecord kategori fileName cmap record = none := by
  have he := elemenOf_eq_empty record amap.elemen_field hapi
  constructor
  · unfold CKANApiLoader.transformRecord
    split
    · simp [CKANApiLoader.transformLong, he]
    · split
      · simp [CKANApiLoader.transformWide, he]
      · rfl
  · have hguard :
        ¬ jsTruthy (CsvLoader.extractField record cmap.elemen_field) = true ∨
          jsTrim (jsToString (CsvLoader.extractField record cmap.elemen_field)) = "" := by
      rcases hcsv with h | h | ⟨s, hs, ht⟩
      · rw [h]; exact Or.inl (by simp [jsTruthy])
      · rw [h]; exact Or.inl (by simp [jsTruthy])
      · rw [hs]; exact Or.inr (by simpa [jsToString] using ht)
    simp only [CsvLoader.transformRecord]
    rw [if_pos hguard]

/-- C5 witness: the spec's own example — a long-mode record with an empty
element — produces no records through either transform. -/
theorem c5_empty_element_witness :
    CKANApiLoader.transformRecord "penduduk" "res-1"
        ⟨"Elemen", some "Tahun", some "Nilai", none, none, none⟩
        (JsValue.obj
          [("Elemen", JsValue.str ""), ("Tahun", JsValue.num (mkRat 2021 1)),
           ("Nilai", JsValue.num (mkRat 5 1))]) = [] ∧
    CsvLoader.transformRecord "penduduk" "data.csv"
        ⟨"Elemen", "Tahun", "Nilai", "Satuan"⟩
        (JsValue.obj
          [("Elemen", JsValue.str ""), ("Tahun", JsValue.num (mkRat 2021 1)),
           ("Nilai", JsValue.num (mkRat 5 1))]) = none := by
  exact c5_empty_element "penduduk" "res-1" "data.csv"
    ⟨"Elemen", some "Tahun", some "Nilai", none, none, none⟩
    ⟨"Elemen", "Tahun", "Nilai", "Satuan"⟩
    (JsValue.obj
      [("Elemen", JsValue.str ""), ("Tahun", JsValue.num (mkRat 2021 1)),
       ("Nilai", JsValue.num (mkRat 5 1))])
    (Or.inr (Or.inr ⟨"", by constructor <;> rfl⟩))
    (Or.inr (Or.inr ⟨"", by constructor <;> rfl⟩))

/-- Under the `uniq_source` unique key, the lookup filter of `getCheckpoint`
returns exactly the matching row. -/
theorem checkpoint_filter_unique (st : SourceType) (ref : String)
    (cps : List CheckpointRow)
    (hpw : cps.Pairwise
      (fun a b => (a.source_type, a.source_ref) ≠ (b.source_type, b.source_ref)))
    (c : CheckpointRow) (hc : c ∈ cps) (hst : c.source_type = st) (href : c.source_ref = ref) :
    cps.filter (fun x => x.source_type = st ∧ x.source_ref = ref) = [c] := by
  induction cps with
  | nil => cases hc
  | cons a t ih =>
    rcases List.pairwise_cons.mp hpw with ⟨hhead, htail⟩
    rcases List.mem_cons.mp hc with rfl | hmem
    · have ha : (decide (c.source_type = st ∧ c.source_ref = ref)) = true := by
        simp [hst, href]
      have hnil : t.filter (fun x => x.source_type = st ∧ x.source_ref = ref) = [] := by
        rw [List.filter_eq_nil_iff]
        intro b hb hbp
        have hb2 : b.source_type = st ∧ b.source_ref = ref := of_decide_eq_true hbp
        exact hhead b hb (by rw [hst, href, hb2.1, hb2.2])
      have hstep :
          List.filter (fun x => decide (x.source_type = st ∧ x.source_ref = ref)) (c :: t) =
            c :: List.filter (fun x => decide (x.source_type = st ∧ x.source_ref = ref)) t := by
        simp [List.filter_cons, hst, href]
      rw [hstep, hnil]
    · have ha : ¬ (a.source_type = st ∧ a.source_ref = ref) := by
        intro hap
        exact hhead c hmem (by rw [hap.1, hap.2, hst, href])
      simp only [List.filter_cons, decide_eq_true_eq, if_neg ha]
      exact ih htail hmem

/-- C7: against an established connection, `getCheckpoint` never propagates
an error: any lookup failure yields offset 0, and when a checkpoint row for
the (unique-keyed) source exists its stored `last_offset` is returned. -/
theorem c7_get_checkpoint (queryFails : Bool) (cps : List CheckpointRow)
    (st : SourceType) (ref : String) :
    (∃ v, DatabaseManager.getCheckpoint true queryFails cps st ref = Except.ok v) ∧
    (queryFails = true →
      DatabaseManager.getCheckpoint true queryFails cps st ref = Except.ok 0) ∧
    (∀ c ∈ cps, c.source_type = st → c.source_ref = ref → queryFails = false →
      cps.Pairwise
        (fun a b => (a.source_type, a.source_ref) ≠ (b.source_type, b.source_ref)) →
      DatabaseManager.getCheckpoint true queryFails cps st ref =
        Except.ok c.last_offset) := by
  refine ⟨?_, ?_, ?_⟩
  · unfold DatabaseManager.getCheckpoint
    cases queryFails with
    | true => exact ⟨0, rfl⟩
    | false =>
      simp only [Bool.not_true, if_neg, if_false]
      cases h : cps.filter (fun c => c.source_type = st ∧ c.source_ref = ref) with
      | nil => exact ⟨0, by simp [h]⟩
      | cons c rest => exact ⟨c.last_offset, by simp [h]⟩
  · intro h
    subst h
    rfl
  · intro c hc hst href hqf hpw
    subst hqf
    have hfil := checkpoint_filter_unique st ref cps hpw c hc hst href
    simp only [Bool.decide_and] at hfil
    unfold DatabaseManager.getCheckpoint
    simp [hfil]

/-- C7 witness: a concrete store with one checkpoint row — the stored offset
is returned on success, 0 on a failing lookup, and no error escapes. -/
theorem c7_get_checkpoint_witness :
    DatabaseManager.getCheckpoint true false [⟨SourceType.api, "res-1", 42⟩]
        SourceType.api "res-1" = Except.ok 42 ∧
    DatabaseManager.getCheckpoint true true [⟨SourceType.api, "res-1", 42⟩]
        SourceType.api "res-1" = Except.ok 0 := by
  constructor
  · exact (c7_get_checkpoint false [⟨SourceType.api, "res-1", 42⟩]
      SourceType.api "res-1").2.2 ⟨SourceType.api, "res-1", 42⟩ (by simp) rfl rfl rfl
      (by simp)
  · exact (c7_get_checkpoint true [⟨SourceType.api, "res-1", 42⟩]
      SourceType.api "res-1").2.1 rfl

/-- A hex digit of a value below 16 is a lowercase hex character. -/
theorem hexChar_mem (n : Nat) (h : n < 16) : isLowerHexDigit (hexChar n) = true := by
  interval_cases n <;> decide

/-- Every character of `toHexWord` is a lowercase hex digit. -/
theorem toHexWord_chars (n : Nat) :
    ∀ c ∈ (toHexWord n).data, isLowerHexDigit c = true := by
  intro c hc
  simp only [toHexWord, String.mk] at hc
  rcases List.mem_map.mp hc with ⟨i, _, rfl⟩
  exact hexChar_mem _ (Nat.mod_lt _ (by decide))

/-- `toHexWord` always renders eight characters. -/
theorem toHexWord_length (n : Nat) : (toHexWord n).data.length = 8 := by
  simp [toHexWord]

/-- Unfolding of `String.join` down to character data. -/
theorem foldl_append_data (l : List String) (acc : String) :
    (l.foldl (· ++ ·) acc).data = acc.data ++ (l.map String.data).flatten := by
  induction l generalizing acc with
  | nil => simp
  | cons x t ih => simp [ih]

/-- `toHexWord` length as `String.length`. -/
theorem toHexWord_strlength (n : Nat) : (toHexWord n).length = 8 := by
  have h : (toHexWord n).length = (toHexWord n).data.length := rfl
  rw [h, toHexWord_length]

/-- The digest is 64 characters long. -/
theorem calculateHash_length (input : String) : (calculateHash input).data.length = 64 := by
  unfold calculateHash sha256Hex sha256Words String.join
  simp [foldl_append_data, toHexWord_length, toHexWord_strlength]

/-- Every character of the digest is a lowercase hex digit. -/
theorem calculateHash_chars (input : String) :
    ∀ c ∈ (calculateHash input).data, isLowerHexDigit c = true := by
  intro c hc
  unfold calculateHash sha256Hex String.join at hc
  rw [foldl_append_data] at hc
  simp only [String.data] at hc
  rcases List.mem_append.mp hc with h | h
  · cases h
  · rcases List.mem_flatten.mp h with ⟨l, hl, hcl⟩
    rcases List.mem_map.mp hl with ⟨s, hs, rfl⟩
    rcases List.mem_map.mp hs with ⟨w, _, rfl⟩
    exact toHexWord_chars w c hcl

/-- C3: every canonical record emitted by either transform carries as
`hash_key` the SHA-256 digest — rendered as lowercase hex — of the
pipe-joined string `kategori|elemen|tahun|nilai|satuan|source_ref` built
from its own fields in exactly that order (`source_ref` being the
resource id for API records and the file name for file records); the
fingerprint is thereby a pure function of these identity fields, and the
digest is always 64 lowercase hex characters. -/
theorem c3_fingerprint (kategori resource_id fileName : String)
    (amap : CKANApiLoader.ApiMapping) (cmap : CsvLoader.CsvMapping) (record : JsValue) :
    (∀ r ∈ CKANApiLoader.transformRecord kategori resource_id amap record,
      r.hash_key = sha256Hex (strToBytes
        (hashInput r.kategori r.elemen r.tahun r.nilai r.satuan r.source_ref))) ∧
    (∀ r, CsvLoader.transformRecord kategori fileName cmap record = some r →
      r.hash_key = sha256Hex (strToBytes
        (hashInput r.kategori r.elemen r.tahun r.nilai r.satuan r.source_ref))) ∧
    (∀ input, (calculateHash input).data.length = 64 ∧
      ∀ c ∈ (calculateHash input).data, isLowerHexDigit c = true) := by
  refine ⟨?_, ?_, fun input => ⟨calculateHash_length input, calculateHash_chars input⟩⟩
  · intro r hr
    unfold CKANApiLoader.transformRecord at hr
    split at hr
    · simp only [CKANApiLoader.transformLong] at hr
      split at hr
      · cases hr
      · rcases List.mem_singleton.mp hr with rfl
        rfl
    · split at hr
      · simp only [CKANApiLoader.transformWide] at hr
        split at hr
        · cases hr
        · rcases List.mem_filterMap.mp hr with ⟨key, hkey, hf⟩
          split at hf
          · cases hf
          · rcases Option.some.inj hf with rfl
            rfl
      · cases hr
  · intro r hr
    simp only [CsvLoader.transformRecord] at hr
    split at hr
    · cases hr
    · rcases Option.some.inj hr with rfl
      rfl

/-- C3 witness: the fingerprint law applied to the first record produced from
the wide-mode example and to the record of a concrete CSV row. -/
theorem c3_fingerprint_witness :
    c3ExampleOut.head!.hash_key = sha256Hex (strToBytes
      (hashInput c3ExampleOut.head!.kategori c3ExampleOut.head!.elemen
        c3ExampleOut.head!.tahun c3ExampleOut.head!.nilai c3ExampleOut.head!.satuan
        c3ExampleOut.head!.source_ref)) ∧
    (c3CsvExampleOut.getD defaultRecord).hash_key = sha256Hex (strToBytes
      (hashInput (c3CsvExampleOut.getD defaultRecord).kategori
        (c3CsvExampleOut.getD defaultRecord).elemen
        (c3CsvExampleOut.getD defaultRecord).tahun
        (c3CsvExampleOut.getD defaultRecord).nilai
        (c3CsvExampleOut.getD defaultRecord).satuan
        (c3CsvExampleOut.getD defaultRecord).source_ref)) := by
  constructor
  · exact (c3_fingerprint "penduduk" "res-1" "data.csv" wideExampleMapping
      ⟨"Elemen", "Tahun", "Nilai", "Satuan"⟩ wideExampleRecord).1
      c3ExampleOut.head! (List.head!_mem_self (by decide))
  · exact (c3_fingerprint "penduduk" "data.csv" "data.csv"
      wideExampleMapping ⟨"Elemen", "Tahun", "Nilai", "Satuan"⟩
      (JsValue.obj
        [("Elemen", JsValue.str "Luas"), ("Tahun", JsValue.str "2020"),
         ("Nilai", JsValue.str "10"), ("Satuan", JsValue.str "ha")])).2.1
      (c3CsvExampleOut.getD defaultRecord) (by rfl)

/-- All-whitespace content: an empty trim means every character is whitespace. -/
theorem trimChars_eq_nil_all_ws (l : List Char) (h : trimChars l = []) :
    ∀ c ∈ l, isJsWs c = true := by
  unfold trimChars at h
  rw [List.reverse_eq_nil_iff, List.dropWhile_eq_nil_iff] at h
  intro c hc
  rcases List.mem_append.mp ((List.takeWhile_append_dropWhile (p := isJsWs) (l := l)) ▸ hc)
    with hmem | hmem
  · exact List.mem_takeWhile_imp hmem
  · exact h c (List.mem_reverse.mpr hmem)

/-- Whitespace survives neither the digit-minus strip nor parsing. -/
theorem ws_not_digit_minus (c : Char) (h : isJsWs c = true) :
    ¬ (c.isDigit ∨ c = '-') := by
  simp only [isJsWs, decide_eq_true_eq] at h
  rcases h with rfl | rfl | rfl | rfl | rfl | rfl <;> decide

/-- A blank string strips to nothing. -/
theorem keepDigitsMinus_of_blank (s : String) (h : jsTrim s = "") :
    keepDigitsMinus s = "" := by
  have hl : trimChars s.data = [] := by
    have := congrArg String.data h
    simpa [jsTrim] using this
  have hws := trimChars_eq_nil_all_ws s.data hl
  unfold keepDigitsMinus
  have hfil : s.data.filter (fun c => c.isDigit || decide (c = '-')) = [] := by
    rw [List.filter_eq_nil_iff]
    intro c hc
    simpa using ws_not_digit_minus c (hws c hc)
  simp [String.mk, hfil]

/-- C2 (counterexample): the API loader's integer parser does not strip:
on `"Rp 100"` it calls `parseInt` directly and yields null, while the
spec-worded normalizer (and the file loader) strips to `"100"` and parses 100. -/
theorem c2_claim_counterexample :
    CKANApiLoader.parseIntSafely (JsValue.str "Rp 100") ≠
      normalizeIntSpec (JsValue.str "Rp 100") ∧
    CKANApiLoader.parseIntSafely (JsValue.str "Rp 100") = none ∧
    normalizeIntSpec (JsValue.str "Rp 100") = some 100 := by
  refine ⟨?_, by decide, by decide⟩
  decide

/-- C2 (amended): the file loader's integer parser behaves exactly as the
claim states (strip to digits and minus signs, then parse; blank or
non-numeric input gives null, and no input raises); the API loader's parser
instead applies `parseInt` to the unstripped string — it still never raises
and still yields null on missing/empty input, but text before the digits
makes the whole value missing. -/
theorem c2_int_parsers_amended :
    (∀ v, CsvLoader.parseIntSafely v = normalizeIntSpec v) ∧
    (∀ v, isMissingStrict v = true → CKANApiLoader.parseIntSafely v = none) ∧
    (∀ s, CKANApiLoader.parseIntSafely (JsValue.str s) = jsParseInt s) := by
  refine ⟨?_, ?_, ?_⟩
  · intro v
    cases v with
    | null => rfl
    | undef => rfl
    | bool b =>
      unfold CsvLoader.parseIntSafely normalizeIntSpec isMissingBlank
      split
      · rename_i hblank
        rw [keepDigitsMinus_of_blank _ (by simpa using hblank)]
        rfl
      · rfl
    | num q =>
      unfold CsvLoader.parseIntSafely normalizeIntSpec isMissingBlank
      split
      · rename_i hblank
        rw [keepDigitsMinus_of_blank _ (by simpa using hblank)]
        rfl
      · rfl
    | str s =>
      unfold CsvLoader.parseIntSafely normalizeIntSpec isMissingBlank
      split
      · rename_i hblank
        rw [keepDigitsMinus_of_blank _ (by simpa using hblank)]
        rfl
      · rfl
    | obj fields =>
      unfold CsvLoader.parseIntSafely normalizeIntSpec isMissingBlank
      split
      · rename_i hblank
        rw [keepDigitsMinus_of_blank _ (by simpa using hblank)]
        rfl
      · rfl
  · intro v h
    unfold CKANApiLoader.parseIntSafely
    rw [h]
    rfl
  · intro s
    by_cases h : s = ""
    · subst h; rfl
    · unfold CKANApiLoader.parseIntSafely isMissingStrict
      simp [h]
      rfl

/-- C2 witness: the amended law at concrete inputs — the file parser equals
the spec normalizer on `"Rp 100"`, and the API parser yields null on `null`. -/
theorem c2_int_parsers_amended_witness :
    CsvLoader.parseIntSafely (JsValue.str "Rp 100") =
      normalizeIntSpec (JsValue.str "Rp 100") ∧
    CKANApiLoader.parseIntSafely JsValue.null = none ∧
    CKANApiLoader.parseIntSafely (JsValue.str "12abc") = jsParseInt "12abc" :=
  ⟨c2_int_parsers_amended.1 (JsValue.str "Rp 100"),
   c2_int_parsers_amended.2.1 JsValue.null rfl,
   c2_int_parsers_amended.2.2 "12abc"⟩

/-- C8 (counterexample): the file loader's extractor does not treat the
empty path as missing — `''.split('.')` is `['']`, so on a record that
happens to own an empty-string key the stored value is returned. -/
theorem c8_claim_counterexample :
    CsvLoader.extractField (JsValue.obj [("", JsValue.num (mkRat 5 1))]) "" ≠
      JsValue.null ∧
    CsvLoader.extractField (JsValue.obj [("", JsValue.num (mkRat 5 1))]) "" =
      JsValue.num (mkRat 5 1) := by
  have h2 : CsvLoader.extractField (JsValue.obj [("", JsValue.num (mkRat 5 1))]) "" =
      JsValue.num (mkRat 5 1) := rfl
  refine ⟨?_, h2⟩
  rw [h2]
  intro h
  exact JsValue.noConfusion h

/-- C8 (amended): both extractors walk the dot-split path key-by-key,
returning the terminal value, and `null` as soon as a segment is absent or
an intermediate value is not an object; neither ever throws (both are total
functions).  An absent or empty path yields `null` in the API extractor
only; the file extractor treats the empty path as the single empty-string
segment, so it returns the record's `""`-keyed value when one exists.  On
every non-empty path the two extractors agree. -/
theorem c8_extractors_amended :
    (∀ record p, p ≠ "" →
      CsvLoader.extractField record p = walkKeys record (jsSplitDot p) ∧
      CKANApiLoader.extractField record (some p) = walkKeys record (jsSplitDot p)) ∧
    (∀ record, CKANApiLoader.extractField record none = JsValue.null ∧
      CKANApiLoader.extractField record (some "") = JsValue.null) ∧
    (∀ v, walkKeys v [] = v) ∧
    (∀ fields k ks, fields.lookup k = none →
      walkKeys (JsValue.obj fields) (k :: ks) = JsValue.null) ∧
    (∀ fields k ks w, fields.lookup k = some w →
      walkKeys (JsValue.obj fields) (k :: ks) = walkKeys w ks) ∧
    (∀ v k ks, (∀ fields, v ≠ JsValue.obj fields) →
      walkKeys v (k :: ks) = JsValue.null) ∧
    (∀ record, CsvLoader.extractField record "" = walkKeys record [""]) := by
  refine ⟨?_, fun record => ⟨rfl, rfl⟩, fun v => rfl, ?_, ?_, ?_, fun record => rfl⟩
  · intro record p hp
    refine ⟨rfl, ?_⟩
    show (if p = "" then JsValue.null else walkKeys record (jsSplitDot p)) =
      walkKeys record (jsSplitDot p)
    rw [if_neg hp]
  · intro fields k ks h
    show (match fields.lookup k with
      | some w => walkKeys w ks
      | none => JsValue.null) = JsValue.null
    rw [h]
  · intro fields k ks w h
    show (match fields.lookup k with
      | some u => walkKeys u ks
      | none => JsValue.null) = walkKeys w ks
    rw [h]
  · intro v k ks h
    cases v with
    | obj fields => exact absurd rfl (h fields)
    | null => rfl
    | undef => rfl
    | bool b => rfl
    | num q => rfl
    | str s => rfl

/-- C8 witness: the amended law at concrete inputs — agreement on the path
`a.b`, missing middle segment, non-object intermediate, and the API
extractor's empty-path guard. -/
theorem c8_extractors_amended_witness :
    (CsvLoader.extractField (JsValue.obj [("a", JsValue.obj [("b", JsValue.str "x")])])
        "a.b" = walkKeys (JsValue.obj [("a", JsValue.obj [("b", JsValue.str "x")])])
          (jsSplitDot "a.b") ∧
      CKANApiLoader.extractField
          (JsValue.obj [("a", JsValue.obj [("b", JsValue.str "x")])]) (some "a.b") =
        walkKeys (JsValue.obj [("a", JsValue.obj [("b", JsValue.str "x")])])
          (jsSplitDot "a.b")) ∧
    walkKeys (JsValue.obj [("a", JsValue.str "x")]) ["b", "c"] = JsValue.null ∧
    walkKeys (JsValue.str "x") ["b"] = JsValue.null :=
  ⟨c8_extractors_amended.1 (JsValue.obj [("a", JsValue.obj [("b", JsValue.str "x")])])
      "a.b" (by decide),
   c8_extractors_amended.2.2.2.1 [("a", JsValue.str "x")] "b" ["c"] rfl,
   c8_extractors_amended.2.2.2.2.2.1 (JsValue.str "x") "b" []
     (fun fields => fun h => JsValue.noConfusion h)⟩

/-- Replacing the pairs of a different key leaves a lookup unchanged. -/
theorem lookup_map_setkey (l : List (String × JsValue)) (k h : String) (v : JsValue)
    (hne : k ≠ h) :
    (l.map (fun kv => if kv.1 = k then (k, v) else kv)).lookup h = l.lookup h := by
  induction l with
  | nil => rfl
  | cons a t ih =>
    rcases a with ⟨ak, av⟩
    simp only [List.map_cons]
    by_cases hak : ak = k
    · rw [if_pos hak]
      rw [List.lookup_cons, List.lookup_cons]
      have h1 : (h == k) = false := beq_eq_false_iff_ne.mpr (Ne.symm hne)
      have h2 : (h == ak) = false := by rw [hak]; exact h1
      rw [h1, h2]
      exact ih
    · rw [if_neg (fun hcontra => hak hcontra)]
      rw [List.lookup_cons, List.lookup_cons]
      cases hha : (h == ak) with
      | true => rfl
      | false => exact ih

/-- Appending a pair with a different key leaves a lookup unchanged. -/
theorem lookup_append_single_ne (l : List (String × JsValue)) (k h : String) (v : JsValue)
    (hne : k ≠ h) :
    (l ++ [(k, v)]).lookup h = l.lookup h := by
  induction l with
  | nil =>
    simp only [List.nil_append]
    rw [List.lookup_cons]
    have h1 : (h == k) = false := beq_eq_false_iff_ne.mpr (Ne.symm hne)
    rw [h1]
  | cons a t ih =>
    rcases a with ⟨ak, av⟩
    simp only [List.cons_append]
    rw [List.lookup_cons, List.lookup_cons]
    cases hha : (h == ak) with
    | true => rfl
    | false => exact ih

/-- Appending a pair with a fresh key makes its value the lookup result. -/
theorem lookup_append_single_self (l : List (String × JsValue)) (h : String) (v : JsValue)
    (hnone : l.lookup h = none) :
    (l ++ [(h, v)]).lookup h = some v := by
  induction l with
  | nil =>
    simp only [List.nil_append]
    rw [List.lookup_cons]
    rw [show (h == h) = true from beq_self_eq_true h]
  | cons a t ih =>
    rcases a with ⟨ak, av⟩
    rw [List.lookup_cons] at hnone
    simp only [List.cons_append]
    rw [List.lookup_cons]
    cases hha : (h == ak) with
    | true => rw [hha] at hnone; cases hnone
    | false => rw [hha] at hnone; exact ih hnone

/-- `objAssign` with a key different from the looked-up one is invisible. -/
theorem lookup_objAssign_ne (l : List (String × JsValue)) (k h : String) (v : JsValue)
    (hne : k ≠ h) :
    (objAssign l k v).lookup h = l.lookup h := by
  unfold objAssign
  split
  · exact lookup_map_setkey l k h v hne
  · exact lookup_append_single_ne l k h v hne

/-- `objAssign` of a fresh key stores its value. -/
theorem lookup_objAssign_fresh (l : List (String × JsValue)) (h : String) (v : JsValue)
    (hnone : l.lookup h = none) :
    (objAssign l h v).lookup h = some v := by
  unfold objAssign
  rw [hnone]
  simp only [Option.isSome_none, Bool.false_eq_true, if_false]
  exact lookup_append_single_self l h v hnone

/-- The Excel fold over headers not containing `h` leaves `h`'s lookup alone. -/
theorem excel_foldl_preserve (row : List JsValue) (h : String) :
    ∀ (t : List String) (n : Nat) (acc : List (String × JsValue)), h ∉ t →
      (((t.enumFrom n).foldl
          (fun acc ih =>
            let v := row.getD ih.1 JsValue.undef
            objAssign acc ih.2 (if jsTruthy v then v else JsValue.str ""))
          acc).lookup h) = acc.lookup h := by
  intro t
  induction t with
  | nil => intro n acc _; rfl
  | cons a t ih =>
    intro n acc hmem
    have hna : a ≠ h := fun he => hmem (he ▸ List.mem_cons_self a t)
    have hnt : h ∉ t := fun hm => hmem (List.mem_cons_of_mem a hm)
    simp only [List.enumFrom, List.foldl_cons]
    rw [ih (n + 1) _ hnt, lookup_objAssign_ne _ _ _ _ hna]

/-- Lookup law of the Excel header-keyed record construction: with distinct
headers, the `i`-th header maps to the `i`-th cell, falsy cells replaced by
the empty string. -/
theorem excel_foldl_lookup (row : List JsValue) :
    ∀ (headers : List String) (n : Nat) (acc : List (String × JsValue))
      (i : Nat) (hi : i < headers.length),
      headers.Nodup →
      (∀ h ∈ headers, acc.lookup h = none) →
      (((headers.enumFrom n).foldl
          (fun acc ih =>
            let v := row.getD ih.1 JsValue.undef
            objAssign acc ih.2 (if jsTruthy v then v else JsValue.str ""))
          acc).lookup (headers.get ⟨i, hi⟩)) =
        some (if jsTruthy (row.getD (n + i) JsValue.undef)
              then row.getD (n + i) JsValue.undef else JsValue.str "") := by
  intro headers
  induction headers with
  | nil => intro n acc i hi; exact absurd hi (Nat.not_lt_zero i)
  | cons hd t ih =>
    intro n acc i hi hnd hacc
    rcases List.nodup_cons.mp hnd with ⟨hhd, hndt⟩
    have hlookup : acc.lookup hd = none := hacc hd (List.mem_cons_self hd t)
    rw [show List.enumFrom n (hd :: t) = (n, hd) :: List.enumFrom (n + 1) t from rfl,
      List.foldl_cons]
    cases i with
    | zero =>
      rw [show (hd :: t).get ⟨0, hi⟩ = hd from rfl]
      rw [excel_foldl_preserve row hd t (n + 1) _ hhd]
      show (objAssign acc hd
        (if jsTruthy (row.getD n JsValue.undef) then row.getD n JsValue.undef
         else JsValue.str "")).lookup hd = _
      rw [lookup_objAssign_fresh acc hd _ hlookup, Nat.add_zero]
    | succ j =>
      have hj : j < t.length := Nat.lt_of_succ_lt_succ hi
      rw [show (hd :: t).get ⟨j + 1, hi⟩ = t.get ⟨j, hj⟩ from rfl]
      have hstep : ∀ h ∈ t,
          (objAssign acc hd
            (if jsTruthy (row.getD n JsValue.undef) then row.getD n JsValue.undef
             else JsValue.str "")).lookup h = none := by
        intro h hm
        have hne : hd ≠ h := fun he => hhd (he ▸ hm)
        rw [lookup_objAssign_ne _ _ _ _ hne]
        exact hacc h (List.mem_cons_of_mem hd hm)
      have := ih (n + 1) _ j hj hndt hstep
      have harith : n + 1 + j = n + (j + 1) := by omega
      rw [harith] at this
      exact this

/-- A dot-free path splits into itself as a single segment. -/
theorem splitDotAux_no_dot (l : List Char) :
    ∀ acc, '.' ∉ l → splitDotAux l acc = [String.mk (acc.reverse ++ l)] := by
  induction l with
  | nil => intro acc _; simp [splitDotAux]
  | cons c rest ih =>
    intro acc h
    have hc : c ≠ '.' := fun he => h (he ▸ List.mem_cons_self c rest)
    have hrest : '.' ∉ rest := fun hm => h (List.mem_cons_of_mem c hm)
    simp only [splitDotAux, if_neg hc]
    rw [ih (c :: acc) hrest]
    simp

/-- `jsSplitDot` of a dot-free key is the singleton key. -/
theorem jsSplitDot_no_dot (s : String) (h : '.' ∉ s.data) : jsSplitDot s = [s] := by
  unfold jsSplitDot
  rw [splitDotAux_no_dot s.toList [] h]
  rfl

/-- Walking a single present key returns its stored value. -/
theorem walkKeys_single (fields : List (String × JsValue)) (k : String) (w : JsValue)
    (h : fields.lookup k = some w) : walkKeys (JsValue.obj fields) [k] = w := by
  show (match fields.lookup k with
    | some u => walkKeys u []
    | none => JsValue.null) = w
  rw [h]
  rfl

/-- C10: in the Excel path, a falsy cell (the number 0, an empty string,
`false`) under a (dot-free, distinct) header is stored as the empty string
when the row becomes a header-keyed record, and a year or value field that
extracts to the empty string yields a missing (`none`) year or value in the
canonical record — never the number 0. -/
theorem c10_excel_zero (headers : List String) (row : List JsValue) (i : Nat)
    (hi : i < headers.length) (hnd : headers.Nodup)
    (hfalsy : jsTruthy (row.getD i JsValue.undef) = false)
    (hdot : '.' ∉ (headers.get ⟨i, hi⟩).data) :
    CsvLoader.extractField (CsvLoader.excelRowToRecord headers row) (headers.get ⟨i, hi⟩)
      = JsValue.str "" ∧
    (∀ kategori fileName cmap record r,
      CsvLoader.transformRecord kategori fileName cmap record = some r →
      (CsvLoader.extractField record cmap.tahun_field = JsValue.str "" → r.tahun = none) ∧
      (CsvLoader.extractField record cmap.nilai_field = JsValue.str "" → r.nilai = none)) := by
  constructor
  · have hlk := excel_foldl_lookup row headers 0 [] i hi hnd (fun h _ => rfl)
    rw [Nat.zero_add, hfalsy] at hlk
    simp only [Bool.false_eq_true, if_false] at hlk
    unfold CsvLoader.extractField
    rw [jsSplitDot_no_dot _ hdot]
    exact walkKeys_single _ _ _ hlk
  · intro kategori fileName cmap record r hr
    simp only [CsvLoader.transformRecord] at hr
    split at hr
    · cases hr
    · rcases Option.some.inj hr with rfl
      constructor
      · intro ht
        simp [ht, jsTruthy]
      · intro hn
        simp [hn, jsTruthy]

/-- C10 witness: the zero year cell of the example row becomes the empty
string in the record and a missing year in the canonical record. -/
theorem c10_excel_zero_witness :
    CsvLoader.extractField (CsvLoader.excelRowToRecord c10Headers c10Row)
        (c10Headers.get ⟨1, by decide⟩) = JsValue.str "" ∧
    ((CsvLoader.transformRecord "penduduk" "data.xlsx"
        ⟨"Elemen", "Tahun", "Nilai", "Satuan"⟩
        (CsvLoader.excelRowToRecord c10Headers c10Row)).getD defaultRecord).tahun
      = none := by
  have hmain := c10_excel_zero c10Headers c10Row 1 (by decide) (by decide) (by decide)
    (by decide)
  refine ⟨hmain.1, ?_⟩
  exact ((hmain.2 "penduduk" "data.xlsx" ⟨"Elemen", "Tahun", "Nilai", "Satuan"⟩
    (CsvLoader.excelRowToRecord c10Headers c10Row)
    ((CsvLoader.transformRecord "penduduk" "data.xlsx"
        ⟨"Elemen", "Tahun", "Nilai", "Satuan"⟩
        (CsvLoader.excelRowToRecord c10Headers c10Row)).getD defaultRecord)
    (by rfl)).1) hmain.1

/-- C4: (a) upserting a record whose fingerprint already has a stored row
rewrites that row in place — the table keeps its size (never a second row)
and every row is either untouched or updated; (b) the `ON DUPLICATE KEY
UPDATE` row update changes only `nilai`, `satuan`, `raw_json`,
`source_type`, `source_ref` and `updated_at`, never the identity columns
`kategori`, `elemen`, `tahun` (nor `hash_key`/`ingested_at`); (c) upserting
the same canonical record twice (at distinct write instants) leaves exactly
one stored row, the first write counted as the insert and the second as the
update. -/
theorem c4_upsert :
    (∀ (db : List FactRow) (r : ProcessedRecord) (now : Nat) (old : FactRow),
      db.find? (fun row => row.hash_key = r.hash_key) = some old →
      (applyUpsertRow db r now).1.length = db.length ∧
      (applyUpsertRow db r now).1 =
        db.map (fun row =>
          if row.hash_key = r.hash_key then updateRow row r now else row)) ∧
    (∀ (old : FactRow) (r : ProcessedRecord) (now : Nat),
      (updateRow old r now).kategori = old.kategori ∧
      (updateRow old r now).elemen = old.elemen ∧
      (updateRow old r now).tahun = old.tahun ∧
      (updateRow old r now).hash_key = old.hash_key ∧
      (updateRow old r now).ingested_at = old.ingested_at ∧
      (updateRow old r now).nilai = r.nilai ∧
      (updateRow old r now).satuan = r.satuan ∧
      (updateRow old r now).raw_json = r.raw_json ∧
      (updateRow old r now).source_type = r.source_type ∧
      (updateRow old r now).source_ref = r.source_ref ∧
      (updateRow old r now).updated_at = now) ∧
    (∀ (r : ProcessedRecord) (t1 t2 : Nat), t1 ≠ t2 →
      (DatabaseManager.upsertRecords [] [r] t1).2.inserted = 1 ∧
      (DatabaseManager.upsertRecords [] [r] t1).2.updated = 0 ∧
      (DatabaseManager.upsertRecords [] [r] t1).1.length = 1 ∧
      (DatabaseManager.upsertRecords
        (DatabaseManager.upsertRecords [] [r] t1).1 [r] t2).1.length = 1 ∧
      (DatabaseManager.upsertRecords
        (DatabaseManager.upsertRecords [] [r] t1).1 [r] t2).2.updated = 1 ∧
      (DatabaseManager.upsertRecords
        (DatabaseManager.upsertRecords [] [r] t1).1 [r] t2).2.inserted = 0) := by
  refine ⟨?_, ?_, ?_⟩
  · intro db r now old hfind
    unfold applyUpsertRow
    rw [hfind]
    exact ⟨List.length_map db _, rfl⟩
  · intro old r now
    refine ⟨rfl, rfl, rfl, rfl, rfl, rfl, rfl, rfl, rfl, rfl, rfl⟩
  · intro r t1 t2 hne
    have h1 : DatabaseManager.upsertRecords [] [r] t1 =
        ([rowOfRecord r t1], upsertCounts 1 1) := rfl
    have hfind2 : [rowOfRecord r t1].find? (fun row => row.hash_key = r.hash_key) =
        some (rowOfRecord r t1) := by
      simp [List.find?, rowOfRecord]
    have hneq : updateRow (rowOfRecord r t1) r t2 ≠ rowOfRecord r t1 := by
      intro he
      exact hne (congrArg FactRow.updated_at he).symm
    have h2 : applyUpsertRow [rowOfRecord r t1] r t2 =
        ([updateRow (rowOfRecord r t1) r t2], 2) := by
      simp only [applyUpsertRow, hfind2, List.map_cons, List.map_nil]
      rw [if_pos (show (rowOfRecord r t1).hash_key = r.hash_key from rfl), if_neg hneq]
    have h3 : DatabaseManager.upsertRecords [rowOfRecord r t1] [r] t2 =
        ([updateRow (rowOfRecord r t1) r t2], upsertCounts 1 2) := by
      unfold DatabaseManager.upsertRecords applyUpsertStmt
      simp only [List.isEmpty_cons, Bool.false_eq_true, if_false, List.foldl_cons,
        List.foldl_nil, h2, List.length_cons, List.length_nil, Nat.zero_add]
    rw [h1]
    simp only [h3]
    refine ⟨rfl, rfl, rfl, rfl, rfl, rfl⟩

/-- C4 witness: the upsert law at a concrete record and concrete instants —
one row after two writes, the second counted as an update; and the in-place
rewrite when the fingerprint already exists. -/
theorem c4_upsert_witness :
    ((DatabaseManager.upsertRecords [] [⟨"k", "e", some 2020, some (mkRat 5 1),
        some "u", "{}", SourceType.api, "res", "h1"⟩] 0).2.inserted = 1 ∧
      (DatabaseManager.upsertRecords
        (DatabaseManager.upsertRecords [] [⟨"k", "e", some 2020, some (mkRat 5 1),
          some "u", "{}", SourceType.api, "res", "h1"⟩] 0).1
        [⟨"k", "e", some 2020, some (mkRat 5 1), some "u", "{}", SourceType.api,
          "res", "h1"⟩] 1).1.length = 1 ∧
      (DatabaseManager.upsertRecords
        (DatabaseManager.upsertRecords [] [⟨"k", "e", some 2020, some (mkRat 5 1),
          some "u", "{}", SourceType.api, "res", "h1"⟩] 0).1
        [⟨"k", "e", some 2020, some (mkRat 5 1), some "u", "{}", SourceType.api,
          "res", "h1"⟩] 1).2.updated = 1) ∧
    (applyUpsertRow [rowOfRecord ⟨"k", "e", some 2020, some (mkRat 5 1), some "u",
        "{}", SourceType.api, "res", "h1"⟩ 0]
      ⟨"k", "e", none, none, none, "{}", SourceType.api, "res2", "h1"⟩ 1).1.length =
        [rowOfRecord ⟨"k", "e", some 2020, some (mkRat 5 1), some "u", "{}",
          SourceType.api, "res", "h1"⟩ 0].length := by
  constructor
  · have h := c4_upsert.2.2 ⟨"k", "e", some 2020, some (mkRat 5 1), some "u", "{}",
      SourceType.api, "res", "h1"⟩ 0 1 (by decide)
    exact ⟨h.1, h.2.2.2.1, h.2.2.2.2.1⟩
  · exact (c4_upsert.1 [rowOfRecord ⟨"k", "e", some 2020, some (mkRat 5 1), some "u",
      "{}", SourceType.api, "res", "h1"⟩ 0]
      ⟨"k", "e", none, none, none, "{}", SourceType.api, "res2", "h1"⟩ 1
      (rowOfRecord ⟨"k", "e", some 2020, some (mkRat 5 1), some "u", "{}",
        SourceType.api, "res", "h1"⟩ 0) (by decide)).1

/-- The chunks concatenate back to the original batch. -/
theorem chunksOfAux_flatten (bs : Nat) (hbs : bs ≠ 0) :
    ∀ (fuel : Nat) (l : List ProcessedRecord), l.length ≤ fuel →
      (chunksOfAux bs fuel l).flatten = l := by
  intro fuel
  induction fuel with
  | zero =>
    intro l hl
    rw [List.eq_nil_of_length_eq_zero (Nat.le_zero.mp hl)]
    rfl
  | succ fuel ih =>
    intro l hl
    cases l with
    | nil => rfl
    | cons x xs =>
      simp only [chunksOfAux, if_neg hbs, List.flatten_cons]
      rw [ih ((x :: xs).drop bs) (by simp only [List.length_drop, List.length_cons] at hl ⊢; omega)]
      exact List.take_append_drop bs (x :: xs)

/-- Every chunk is non-empty and no longer than the chunk size. -/
theorem chunksOfAux_shape (bs : Nat) (hbs : bs ≠ 0) :
    ∀ (fuel : Nat) (l : List ProcessedRecord) (c : List ProcessedRecord),
      c ∈ chunksOfAux bs fuel l → c ≠ [] ∧ c.length ≤ bs := by
  intro fuel
  induction fuel with
  | zero =>
    intro l c hc
    cases l with
    | nil => cases hc
    | cons x xs => cases hc
  | succ fuel ih =>
    intro l c hc
    cases l with
    | nil => cases hc
    | cons x xs =>
      simp only [chunksOfAux, if_neg hbs] at hc
      rcases List.mem_cons.mp hc with rfl | hmem
      · constructor
        · intro he
          have := congrArg List.length he
          simp [List.length_take] at this
          omega
        · simp [List.length_take]
      · exact ih _ c hmem

/-- The batch loop is exactly the chunk-structured fold. -/
theorem batchGo_eq_processChunks (failsAt : Nat → Bool) (bs : Nat) (hbs : bs ≠ 0)
    (now : Nat) :
    ∀ (fuel : Nat) (rem : List ProcessedRecord) (idx : Nat) (db : List FactRow),
      rem.length ≤ fuel →
      DatabaseManager.batchGo failsAt idx db fuel rem bs now =
        processChunks failsAt idx db (chunksOfAux bs fuel rem) now := by
  intro fuel
  induction fuel with
  | zero =>
    intro rem idx db hl
    rw [List.eq_nil_of_length_eq_zero (Nat.le_zero.mp hl)]
    rfl
  | succ fuel ih =>
    intro rem idx db hl
    cases rem with
    | nil => rfl
    | cons x xs =>
      simp only [DatabaseManager.batchGo, chunksOfAux, if_neg hbs, processChunks]
      rw [ih ((x :: xs).drop bs) (idx + 1) _ (by simp only [List.length_drop, List.length_cons] at hl ⊢; omega)]

/-- C6: with a positive chunk size, the batch upsert splits the batch into
consecutive sub-batches of at most the chunk size (concatenating back to the
batch), attempts them sequentially, counts a failing chunk's records as
errors while leaving the table untouched and still attempting every later
chunk, and sums the per-chunk tallies of inserted, updated, skipped and
errors into the returned tally. -/
theorem c6_batch_chunks (failsAt : Nat → Bool) (db : List FactRow)
    (records : List ProcessedRecord) (bs : Nat) (now : Nat) (hbs : 0 < bs) :
    (chunksOf bs records).flatten = records ∧
    (∀ c ∈ chunksOf bs records, c ≠ [] ∧ c.length ≤ bs) ∧
    DatabaseManager.batchUpsertRecords failsAt db records bs now =
      processChunks failsAt 0 db (chunksOf bs records) now ∧
    (∀ (idx : Nat) (db2 : List FactRow) (c : List ProcessedRecord)
        (cs : List (List ProcessedRecord)),
      failsAt idx = true →
        processChunks failsAt idx db2 (c :: cs) now =
          ((processChunks failsAt (idx + 1) db2 cs now).1,
           DatabaseManager.addResults ⟨0, 0, 0, c.length⟩
             (processChunks failsAt (idx + 1) db2 cs now).2)) ∧
    (∀ (idx : Nat) (db2 : List FactRow) (c : List ProcessedRecord)
        (cs : List (List ProcessedRecord)),
      failsAt idx = false →
        processChunks failsAt idx db2 (c :: cs) now =
          ((processChunks failsAt (idx + 1)
              (DatabaseManager.upsertRecords db2 c now).1 cs now).1,
           DatabaseManager.addResults (DatabaseManager.upsertRecords db2 c now).2
             (processChunks failsAt (idx + 1)
               (DatabaseManager.upsertRecords db2 c now).1 cs now).2)) := by
  have hbs0 : bs ≠ 0 := Nat.pos_iff_ne_zero.mp hbs
  refine ⟨chunksOfAux_flatten bs hbs0 records.length records (Nat.le_refl _),
    fun c hc => chunksOfAux_shape bs hbs0 records.length records c hc,
    batchGo_eq_processChunks failsAt bs hbs0 now records.length records 0 db
      (Nat.le_refl _), ?_, ?_⟩
  · intro idx db2 c cs hfail
    simp only [processChunks, hfail, if_true]
  · intro idx db2 c cs hok
    simp only [processChunks, hok, Bool.false_eq_true, if_false]

/-- C6 witness: the chunking law at chunk size 2 over three records with the
first chunk's transaction failing. -/
theorem c6_batch_chunks_witness :
    (chunksOf 2 c6Records).flatten = c6Records ∧
    DatabaseManager.batchUpsertRecords (fun i => decide (i = 0)) [] c6Records 2 0 =
      processChunks (fun i => decide (i = 0)) 0 [] (chunksOf 2 c6Records) 0 := by
  have h := c6_batch_chunks (fun i => decide (i = 0)) [] c6Records 2 0 (by decide)
  exact ⟨h.1, h.2.2.1⟩
